import Mathlib

/-!
Verification of the cryptomkt-rs signed-request pipeline.

The definitions below are a shallow embedding of the Rust sources
`src/internal/api.rs` and `src/internal/request.rs`:

* `HashMap<String, String>` values are embedded as association lists
  `List (String × String)`; an arbitrary list order models the map's
  arbitrary iteration order, and the `Nodup` hypothesis on the key list
  models the map invariant that keys are unique.
* fallible operations (`Option::unwrap` on lookups, `split(..).first()`)
  are embedded in the `Option` monad, `none` modelling a panic;
* machine words are `Nat` with explicit reduction modulo `2 ^ 64`;
* the external `ring::hmac` primitive (`HMAC_SHA384`) is embedded
  operationally as HMAC with SHA-512/384 per FIPS 180-4 / RFC 2104,
  which is the documented behaviour of the crate.
-/

set_option maxRecDepth 100000

namespace CryptoMkt

/-! ### 64-bit word arithmetic (`u64` operations used by SHA-512) -/

/-- The modulus for 64-bit words. -/
def M64 : Nat := 2 ^ 64

/-- Addition modulo `2 ^ 64` (`u64::wrapping_add`). -/
def add64 (x y : Nat) : Nat := (x + y) % M64

/-- Right rotation of a 64-bit word by `n` bits. -/
def rotr (x n : Nat) : Nat := (x >>> n) + (x % 2 ^ n) * 2 ^ (64 - n)

/-- Bitwise complement of a 64-bit word. -/
def not64 (x : Nat) : Nat := x ^^^ (M64 - 1)

/-! ### SHA-512/384 (FIPS 180-4), the hash underlying the signature -/

/-- SHA-512 big sigma 0. -/
def bsig0 (x : Nat) : Nat := rotr x 28 ^^^ rotr x 34 ^^^ rotr x 39

/-- SHA-512 big sigma 1. -/
def bsig1 (x : Nat) : Nat := rotr x 14 ^^^ rotr x 18 ^^^ rotr x 41

/-- SHA-512 small sigma 0. -/
def ssig0 (x : Nat) : Nat := rotr x 1 ^^^ rotr x 8 ^^^ (x >>> 7)

/-- SHA-512 small sigma 1. -/
def ssig1 (x : Nat) : Nat := rotr x 19 ^^^ rotr x 61 ^^^ (x >>> 6)

/-- SHA-2 choice function. -/
def ch (e f g : Nat) : Nat := (e &&& f) ^^^ (not64 e &&& g)

/-- SHA-2 majority function. -/
def maj (a b c : Nat) : Nat := (a &&& b) ^^^ (a &&& c) ^^^ (b &&& c)

/-- The eight 64-bit words of a SHA-512 hash state. -/
structure Sha2State where
  a : Nat
  b : Nat
  c : Nat
  d : Nat
  e : Nat
  f : Nat
  g : Nat
  h : Nat

/-- The 80 SHA-512 round constants (FIPS 180-4 §4.2.3). -/
def K512 : List Nat :=
  [4794697086780616226, 8158064640168781261, 13096744586834688815, 16840607885511220156,
   4131703408338449720, 6480981068601479193, 10538285296894168987, 12329834152419229976,
   15566598209576043074, 1334009975649890238, 2608012711638119052, 6128411473006802146,
   8268148722764581231, 9286055187155687089, 11230858885718282805, 13951009754708518548,
   16472876342353939154, 17275323862435702243, 1135362057144423861, 2597628984639134821,
   3308224258029322869, 5365058923640841347, 6679025012923562964, 8573033837759648693,
   10970295158949994411, 12119686244451234320, 12683024718118986047, 13788192230050041572,
   14330467153632333762, 15395433587784984357, 489312712824947311, 1452737877330783856,
   2861767655752347644, 3322285676063803686, 5560940570517711597, 5996557281743188959,
   7280758554555802590, 8532644243296465576, 9350256976987008742, 10552545826968843579,
   11727347734174303076, 12113106623233404929, 14000437183269869457, 14369950271660146224,
   15101387698204529176, 15463397548674623760, 17586052441742319658, 1182934255886127544,
   1847814050463011016, 2177327727835720531, 2830643537854262169, 3796741975233480872,
   4115178125766777443, 5681478168544905931, 6601373596472566643, 7507060721942968483,
   8399075790359081724, 8693463985226723168, 9568029438360202098, 10144078919501101548,
   10430055236837252648, 11840083180663258601, 13761210420658862357, 14299343276471374635,
   14566680578165727644, 15097957966210449927, 16922976911328602910, 17689382322260857208,
   500013540394364858, 748580250866718886, 1242879168328830382, 1977374033974150939,
   2944078676154940804, 3659926193048069267, 4368137639120453308, 4836135668995329356,
   5532061633213252278, 6448918945643986474, 6902733635092675308, 7801388544844847127]

/-- The SHA-384 initial hash value (FIPS 180-4 §5.3.4). -/
def H384init : Sha2State :=
  ⟨14680500436340154072, 7105036623409894663, 10473403895298186519, 1526699215303891257,
   7436329637833083697, 10282925794625328401, 15784041429090275239, 5167115440072839076⟩

/-- Extends the 16-word chunk by `n` further schedule words
(`W t = σ1 (W (t-2)) + W (t-7) + σ0 (W (t-15)) + W (t-16)`). -/
def scheduleAux : Nat → List Nat → List Nat
  | 0, ws => ws
  | n + 1, ws =>
    let t := ws.length
    let w := add64 (add64 (ssig1 (ws.getD (t - 2) 0)) (ws.getD (t - 7) 0))
                   (add64 (ssig0 (ws.getD (t - 15) 0)) (ws.getD (t - 16) 0))
    scheduleAux n (ws ++ [w])

/-- The 80-word message schedule of a 16-word chunk. -/
def msgSchedule (chunk : List Nat) : List Nat := scheduleAux 64 chunk

/-- One SHA-512 round on the working variables. -/
def roundStep (st : Sha2State) (kw : Nat × Nat) : Sha2State :=
  let t1 := add64 st.h (add64 (bsig1 st.e) (add64 (ch st.e st.f st.g) (add64 kw.1 kw.2)))
  let t2 := add64 (bsig0 st.a) (maj st.a st.b st.c)
  ⟨add64 t1 t2, st.a, st.b, st.c, add64 st.d t1, st.e, st.f, st.g⟩

/-- The SHA-512 compression function on one 16-word chunk. -/
def compress (st : Sha2State) (chunk : List Nat) : Sha2State :=
  let r := (K512.zip (msgSchedule chunk)).foldl roundStep st
  ⟨add64 st.a r.a, add64 st.b r.b, add64 st.c r.c, add64 st.d r.d,
   add64 st.e r.e, add64 st.f r.f, add64 st.g r.g, add64 st.h r.h⟩

/-- The `n`-byte big-endian encoding of `x`. -/
def beBytes : Nat → Nat → List Nat
  | 0, _ => []
  | n + 1, x => beBytes n (x / 256) ++ [x % 256]

/-- SHA padding: append `0x80`, zero bytes up to 112 mod 128, then the
128-bit big-endian bit length. -/
def padMessage (m : List Nat) : List Nat :=
  m ++ 0x80 :: (List.replicate ((112 - (m.length + 1) % 128 + 128) % 128) 0
    ++ beBytes 16 (8 * m.length))

/-- Packs `n` big-endian 64-bit words from a byte list. -/
def toWords : Nat → List Nat → List Nat
  | 0, _ => []
  | n + 1, bytes => (bytes.take 8).foldl (fun acc b => acc * 256 + b) 0 :: toWords n (bytes.drop 8)

/-- Splits a (padded) byte list into 16-word chunks of 128 bytes;
the first argument is fuel bounding the number of steps. -/
def chunksGo : Nat → List Nat → List (List Nat)
  | 0, _ => []
  | fuel + 1, bytes =>
    if bytes.isEmpty then []
    else toWords 16 (bytes.take 128) :: chunksGo fuel (bytes.drop 128)

/-- The 48-byte SHA-384 digest: the first six state words, big-endian. -/
def digest (st : Sha2State) : List Nat :=
  beBytes 8 st.a ++ beBytes 8 st.b ++ beBytes 8 st.c
    ++ beBytes 8 st.d ++ beBytes 8 st.e ++ beBytes 8 st.f

/-- SHA-384 of a byte list. -/
def sha384Bytes (m : List Nat) : List Nat :=
  let p := padMessage m
  digest ((chunksGo p.length p).foldl compress H384init)

/-- HMAC-SHA384 (RFC 2104, block size 128 bytes, long keys pre-hashed),
the behaviour of the external ring primitive used by `sign_msg`. -/
def hmacSha384 (key msg : List Nat) : List Nat :=
  let k0 := if key.length > 128 then sha384Bytes key else key
  let kp := k0 ++ List.replicate (128 - k0.length) 0
  sha384Bytes ((kp.map (fun b => b ^^^ 0x5c))
    ++ sha384Bytes ((kp.map (fun b => b ^^^ 0x36)) ++ msg))

/-- The UTF-8 bytes of a string (`str::as_bytes`). -/
def utf8Bytes (s : String) : List Nat :=
  s.data.flatMap (fun c =>
    let n := c.toNat
    if n < 0x80 then [n]
    else if n < 0x800 then [0xc0 ||| (n >>> 6), 0x80 ||| (n &&& 0x3f)]
    else if n < 0x10000 then
      [0xe0 ||| (n >>> 12), 0x80 ||| ((n >>> 6) &&& 0x3f), 0x80 ||| (n &&& 0x3f)]
    else
      [0xf0 ||| (n >>> 18), 0x80 ||| ((n >>> 12) &&& 0x3f),
       0x80 ||| ((n >>> 6) &&& 0x3f), 0x80 ||| (n &&& 0x3f)])

/-! ### Lowercase hex encoding (the Rust format write of each byte) -/

/-- The lowercase hexadecimal alphabet. -/
def hexDigits : List Char := "0123456789abcdef".data

/-- The lowercase hex digit of `n % 16`. -/
def hexDigit (n : Nat) : Char := hexDigits.getD (n % 16) '0'

/-- The two hex characters of one byte, high nibble first. -/
def hexByte (b : Nat) : List Char := [hexDigit (b / 16), hexDigit b]

/-- Lowercase hex encoding of a byte list, in byte order. -/
def hexOfBytes (bs : List Nat) : String := String.mk (bs.flatMap hexByte)

/-- Embeds `Api::sign_msg` (src/internal/api.rs:185-195): HMAC-SHA384 of
the message under the secret key, written byte by byte as two lowercase
hex characters. -/
def sign_msg (secret_key msg : String) : String :=
  hexOfBytes (hmacSha384 (utf8Bytes secret_key) (utf8Bytes msg))

/-- SHA-384 test vector: the empty message (FIPS example value). -/
theorem sha384_empty_vector :
    hexOfBytes (sha384Bytes []) =
      "38b060a751ac96384cd9327eb1b1e36a21fdb71114be07434c0cc7bf63f6e1da274edebfe76f65fbd51ad2f14898b95b" := by
  rfl

/-- SHA-384 test vector: the three-byte message abc (FIPS example value). -/
theorem sha384_abc_vector :
    hexOfBytes (sha384Bytes (utf8Bytes "abc")) =
      "cb00753f45a35e8bb5a03d699ac65007272c32ab0eded1631a8b605a43ff5bed8086072ba1e7cc2358baeca134c825a7" := by
  rfl

/-- HMAC-SHA384 test vector (checked against an independent implementation). -/
theorem sign_msg_vector :
    sign_msg "key" "msg" =
      "3bba95ff38376a129225ec5430dd3aff6ac7b7acdb829a4af35f33f8c6ddbbf9d85fb31f8b20316db93aedd08a816cfa" := by
  rfl

/-! ### The error taxonomy and the transport layer -/

/-- Modelled from the spec: the closed error taxonomy `CryptoMktErrorType`
(its declaring file `src/internal/errors.rs` is not among the sources; the
variants below are exactly those constructed in `src/internal/api.rs` and
`src/internal/request.rs`, named as there — the spec calls
`RequestUnauthorized` simply Unauthorized, and so on). -/
inductive CryptoMktErrorType where
  | BadRequest
  | RequestUnauthorized
  | RequestForbidden
  | RequestNotFound
  | RequestMethodNotAllowed
  | RequestNotAcceptable
  | RequestGone
  | RequestTeapot
  | RequestTooManyRequests
  | RequestInternalServerError
  | RequestServiceUnavailable
  | MalformedResource
deriving DecidableEq, Repr

open CryptoMktErrorType

/-- Embeds `CryptoMktRequest::translate_errors`
(src/internal/request.rs:61-109) as a function of the log prefix and the
numeric HTTP status code.  The source writes the prefix only to the error
log; the returned kind never depends on it.  The Rust match on named
`StatusCode` constants becomes the corresponding chain of comparisons, and
the catch-all arm keeps its test for code 418. -/
def translate_errors (_pfx : String) (status : Nat) : CryptoMktErrorType :=
  if status = 401 then RequestUnauthorized
  else if status = 403 then RequestForbidden
  else if status = 404 then RequestNotFound
  else if status = 405 then RequestMethodNotAllowed
  else if status = 406 then RequestNotAcceptable
  else if status = 410 then RequestGone
  else if status = 429 then RequestTooManyRequests
  else if status = 500 then RequestInternalServerError
  else if status = 503 then RequestServiceUnavailable
  else if status = 418 then RequestTeapot
  else BadRequest

/-- The outcome of one HTTP exchange as seen by the transport: either no
response at all (DNS failure, refused connection, ...) or a response with
a status code and a body-text read that may itself fail. -/
inductive HttpOutcome where
  | netErr
  | resp (status : Nat) (body : Except Unit String)

/-- Embeds `CryptoMktRequest::get` (src/internal/request.rs:121-139):
only a status of exactly 200 reaches the body text; a failed body read
gives `MalformedResource`; any other status is translated; a transport
failure gives `BadRequest`. -/
def rustGet (o : HttpOutcome) : Except CryptoMktErrorType String :=
  match o with
  | .netErr => .error BadRequest
  | .resp status body =>
    if status = 200 then
      match body with
      | .ok txt => .ok txt
      | .error _ => .error MalformedResource
    else .error (translate_errors "GET" status)

/-- Embeds `CryptoMktRequest::post` (src/internal/request.rs:146-170):
identical to `rustGet` except that a failed body read gives
`BadRequest`. -/
def rustPost (o : HttpOutcome) : Except CryptoMktErrorType String :=
  match o with
  | .netErr => .error BadRequest
  | .resp status body =>
    if status = 200 then
      match body with
      | .ok txt => .ok txt
      | .error _ => .error BadRequest
    else .error (translate_errors "POST" status)

/-- Embeds the decoding half of `Api::get_edge` (src/internal/api.rs:110-117):
the transport result is propagated with the error operator; a body that the
decoder (`serde_json::from_str`, abstracted as `decode` with error detail
type `E`) rejects becomes `MalformedResource`, dropping the detail. -/
def get_edge {T E : Type} (decode : String → Except E T)
    (transport : Except CryptoMktErrorType String) : Except CryptoMktErrorType T :=
  match transport with
  | .error e => .error e
  | .ok body =>
    match decode body with
    | .ok v => .ok v
    | .error _ => .error MalformedResource

/-- Embeds the decoding half of `Api::post_edge` (src/internal/api.rs:136-143),
which is identical to that of `get_edge`. -/
def post_edge {T E : Type} (decode : String → Except E T)
    (transport : Except CryptoMktErrorType String) : Except CryptoMktErrorType T :=
  match transport with
  | .error e => .error e
  | .ok body =>
    match decode body with
    | .ok v => .ok v
    | .error _ => .error MalformedResource

/-- The GET pipeline from HTTP outcome to typed result:
`Api::get_edge` running over `CryptoMktRequest::get`. -/
def getPipeline {T E : Type} (decode : String → Except E T) (o : HttpOutcome) :
    Except CryptoMktErrorType T :=
  get_edge decode (rustGet o)

/-- The POST pipeline from HTTP outcome to typed result:
`Api::post_edge` running over `CryptoMktRequest::post`. -/
def postPipeline {T E : Type} (decode : String → Except E T) (o : HttpOutcome) :
    Except CryptoMktErrorType T :=
  post_edge decode (rustPost o)

/-! ### The signature message and the auth headers -/

/-- Lexicographic comparison of character lists by numeric code point:
equal heads recurse, otherwise the code points decide.  On UTF-8 text the
code-point order coincides with Rust's byte-wise str ordering, the order
used by `keys.sort()`. -/
def strLeb : List Char → List Char → Bool
  | [], _ => true
  | _ :: _, [] => false
  | c :: cs, d :: ds =>
    if c.toNat = d.toNat then strLeb cs ds else decide (c.toNat < d.toNat)

/-- The ascending string order of Rust's `Ord for String`. -/
def strLe (a b : String) : Prop := strLeb a.data b.data = true

instance : DecidableRel strLe :=
  fun a b => inferInstanceAs (Decidable (strLeb a.data b.data = true))

/-- The comparison is total. -/
theorem strLeb_total : ∀ a b, strLeb a b = true ∨ strLeb b a = true
  | [], _ => Or.inl rfl
  | _ :: _, [] => Or.inr rfl
  | c :: cs, d :: ds => by
    simp only [strLeb]
    by_cases h : c.toNat = d.toNat
    · rcases strLeb_total cs ds with h2 | h2
      · exact Or.inl (by rw [if_pos h]; exact h2)
      · exact Or.inr (by rw [if_pos h.symm]; exact h2)
    · rcases Nat.lt_or_ge c.toNat d.toNat with h2 | h2
      · exact Or.inl (by rw [if_neg h]; exact decide_eq_true h2)
      · have h3 : d.toNat < c.toNat := Nat.lt_of_le_of_ne h2 (fun he => h he.symm)
        exact Or.inr (by rw [if_neg (fun he => h he.symm)]; exact decide_eq_true h3)

/-- The comparison is transitive. -/
theorem strLeb_trans : ∀ a b c, strLeb a b = true → strLeb b c = true → strLeb a c = true
  | [], _, _, _, _ => rfl
  | _ :: _, [], _, hab, _ => by simp [strLeb] at hab
  | _ :: _, _ :: _, [], _, hbc => by simp [strLeb] at hbc
  | x :: xs, y :: ys, z :: zs, hab, hbc => by
    simp only [strLeb] at hab hbc ⊢
    by_cases h1 : x.toNat = y.toNat
    · by_cases h2 : y.toNat = z.toNat
      · rw [if_pos h1] at hab
        rw [if_pos h2] at hbc
        rw [if_pos (h1.trans h2)]
        exact strLeb_trans xs ys zs hab hbc
      · rw [if_pos h1] at hab
        rw [if_neg h2] at hbc
        have hyz := of_decide_eq_true hbc
        have hxz : x.toNat < z.toNat := by omega
        rw [if_neg (Nat.ne_of_lt hxz)]
        exact decide_eq_true hxz
    · rw [if_neg h1] at hab
      have hxy := of_decide_eq_true hab
      by_cases h2 : y.toNat = z.toNat
      · have hxz : x.toNat < z.toNat := by omega
        rw [if_neg (Nat.ne_of_lt hxz)]
        exact decide_eq_true hxz
      · rw [if_neg h2] at hbc
        have hyz := of_decide_eq_true hbc
        have hxz : x.toNat < z.toNat := by omega
        rw [if_neg (Nat.ne_of_lt hxz)]
        exact decide_eq_true hxz

/-- The comparison is antisymmetric. -/
theorem strLeb_antisymm : ∀ a b, strLeb a b = true → strLeb b a = true → a = b
  | [], [], _, _ => rfl
  | [], _ :: _, _, hba => by simp [strLeb] at hba
  | _ :: _, [], hab, _ => by simp [strLeb] at hab
  | c :: cs, d :: ds, hab, hba => by
    simp only [strLeb] at hab hba
    by_cases h : c.toNat = d.toNat
    · rw [if_pos h] at hab
      rw [if_pos h.symm] at hba
      have h1 : cs = ds := strLeb_antisymm cs ds hab hba
      have h2 : c = d := Char.ext (UInt32.toNat.inj h)
      rw [h1, h2]
    · rw [if_neg h] at hab
      rw [if_neg (fun he => h he.symm)] at hba
      have h1 := of_decide_eq_true hab
      have h2 := of_decide_eq_true hba
      omega

instance : IsTotal String strLe := ⟨fun a b => strLeb_total a.data b.data⟩

instance : IsTrans String strLe := ⟨fun a b c => strLeb_trans a.data b.data c.data⟩

instance : IsAntisymm String strLe :=
  ⟨fun a b h1 h2 => by
    cases a; cases b
    exact congrArg String.mk (strLeb_antisymm _ _ h1 h2)⟩

/-- The timestamp string the Rust code derives from the system clock
(src/internal/api.rs:161-164): the Unix seconds on a clock at or after
the epoch (`now = some n`), and the empty string when
`duration_since(UNIX_EPOCH)` fails (`now = none`). -/
def tsStr (now : Option Nat) : String :=
  match now with
  | some n => toString n
  | none => ""

/-- Embeds `Api::build_signature_format` (src/internal/api.rs:154-177).
The payload is an association list in arbitrary (iteration) order; `sort`
on the key vector is embedded as `insertionSort` — on `String`, whose
order is total and antisymmetric, every ascending sort agrees with Rust's
stable `sort`, element for element.  Each `payload.get(k).unwrap()` is a
lookup in the `Option` monad, `none` standing for the panic of `unwrap`. -/
def build_signature_format (api_version endpoint : String)
    (payload : List (String × String)) (is_get : Bool) (now : Option Nat) :
    Option String :=
  let base := tsStr now ++ "/" ++ api_version ++ "/" ++ endpoint
  if is_get then some base
  else
    (List.insertionSort strLe (payload.map Prod.fst)).foldlM
      (fun s k => (payload.lookup k).map (fun v => s ++ v)) base

/-- Header name for the API key. -/
def X_MKT_APIKEY : String := "X-MKT-APIKEY"

/-- Header name for the signature. -/
def X_MKT_SIGNATURE : String := "X-MKT-SIGNATURE"

/-- Header name for the timestamp. -/
def X_MKT_TIMESTAMP : String := "X-MKT-TIMESTAMP"

/-- Splitting a character list at every occurrence of `sep`
(Rust's `str::split`, which always yields at least one piece). -/
def splitChars (sep : Char) : List Char → List (List Char)
  | [] => [[]]
  | c :: cs =>
    match splitChars sep cs with
    | [] => [[c]]
    | t :: ts => if c = sep then [] :: t :: ts else (c :: t) :: ts

/-- The first piece of a split, `split(sep).first()` in the Rust source. -/
def rustSplitFirst (sep : Char) (s : String) : Option String :=
  match splitChars sep s.data with
  | [] => none
  | t :: _ => some (String.mk t)

/-- Whether a byte may appear in an http HeaderValue (the http crate's
validity test behind `HeaderValue::from_str`): visible ASCII or obs-text —
any byte from 32 up except DEL — or horizontal tab. -/
def headerByteOk (b : Nat) : Bool :=
  (decide (32 ≤ b) && decide (b ≠ 127)) || decide (b = 9)

/-- `HeaderValue::from_str`: succeeds exactly when every byte of the UTF-8
encoding is a valid header byte; in `build_headers` its result is
`unwrap`ped, so `none` models the panic on an unrepresentable value. -/
def mkHeaderValue (s : String) : Option String :=
  if (utf8Bytes s).all headerByteOk then some s else none

/-- Embeds `Api::build_headers` (src/internal/api.rs:206-231).  The
`HeaderMap` is an association list; its three `insert` calls with the three
distinct constant names produce exactly the three entries below.  The
`unwrap`s of the source, in source order — `HeaderValue::from_str` on the
api key, the signature and the timestamp, and `first()` on the split —
are the `Option` matches, `none` modelling the panic. -/
def build_headers (api_key secret_key api_version endpoint : String)
    (payload : List (String × String)) (is_public is_get : Bool) (now : Option Nat) :
    Option (List (String × String)) :=
  if is_public then some []
  else
    match build_signature_format api_version endpoint payload is_get now with
    | none => none
    | some msg =>
      match mkHeaderValue api_key with
      | none => none
      | some kv =>
        match mkHeaderValue (sign_msg secret_key msg) with
        | none => none
        | some sv =>
          match rustSplitFirst '/' msg with
          | none => none
          | some ts =>
            match mkHeaderValue ts with
            | none => none
            | some tv =>
              some [(X_MKT_APIKEY, kv),
                    (X_MKT_SIGNATURE, sv),
                    (X_MKT_TIMESTAMP, tv)]

/-! ### The URL model -/

/-- C5: translate_errors is a total pure function of the HTTP status code
alone — the log prefix never changes the result — mapping 401, 403, 404,
405, 406, 410, 418, 429, 500 and 503 to their dedicated kinds and every
other status to BadRequest. -/
theorem C5_translate_errors_taxonomy :
    (∀ pfx : String,
      translate_errors pfx 401 = CryptoMktErrorType.RequestUnauthorized ∧
      translate_errors pfx 403 = CryptoMktErrorType.RequestForbidden ∧
      translate_errors pfx 404 = CryptoMktErrorType.RequestNotFound ∧
      translate_errors pfx 405 = CryptoMktErrorType.RequestMethodNotAllowed ∧
      translate_errors pfx 406 = CryptoMktErrorType.RequestNotAcceptable ∧
      translate_errors pfx 410 = CryptoMktErrorType.RequestGone ∧
      translate_errors pfx 418 = CryptoMktErrorType.RequestTeapot ∧
      translate_errors pfx 429 = CryptoMktErrorType.RequestTooManyRequests ∧
      translate_errors pfx 500 = CryptoMktErrorType.RequestInternalServerError ∧
      translate_errors pfx 503 = CryptoMktErrorType.RequestServiceUnavailable ∧
      ∀ s : Nat, s ∉ ([401, 403, 404, 405, 406, 410, 418, 429, 500, 503] : List Nat) →
        translate_errors pfx s = CryptoMktErrorType.BadRequest) ∧
    (∀ (p1 p2 : String) (s : Nat), translate_errors p1 s = translate_errors p2 s) := by
  constructor
  · intro pfx
    refine ⟨rfl, rfl, rfl, rfl, rfl, rfl, rfl, rfl, rfl, rfl, ?_⟩
    intro s hs
    simp only [List.mem_cons, List.not_mem_nil, or_false, not_or] at hs
    obtain ⟨h1, h2, h3, h4, h5, h6, h7, h8, h9, h10⟩ := hs
    simp [translate_errors, h1, h2, h3, h4, h5, h6, h7, h8, h9, h10]
  · intro p1 p2 s
    rfl

/-- C5 witness: status 402 is not in the table and maps to BadRequest
under the GET log prefix. -/
theorem C5_witness : translate_errors "GET" 402 = CryptoMktErrorType.BadRequest :=
  (C5_translate_errors_taxonomy.1 "GET").2.2.2.2.2.2.2.2.2.2 402 (by decide)

/-- C6 counterexample: status 201 lies in the 2xx success class, yet the
transport never hands its body to the decoder — it returns the translated
error BadRequest instead of the body text. -/
theorem C6_counterexample :
    (200 ≤ 201 ∧ 201 < 300) ∧
    rustGet (.resp 201 (.ok "x")) = .error CryptoMktErrorType.BadRequest := by
  exact ⟨by decide, rfl⟩

/-- C6 (amended): the GET transport hands the response body on if and only
if the status is exactly 200 (not the whole 2xx class); on status 429 the
pipeline returns RequestTooManyRequests without ever invoking the decoder
(the result is this error for every decoder and every body). -/
theorem C6_decode_only_on_200 (s : Nat) (txt : String) :
    (rustGet (.resp s (.ok txt)) = .ok txt ↔ s = 200) ∧
    (∀ (T E : Type) (decode : String → Except E T) (body : Except Unit String),
      getPipeline decode (.resp 429 body) = .error CryptoMktErrorType.RequestTooManyRequests) := by
  constructor
  · constructor
    · intro h
      by_contra hne
      simp [rustGet, hne] at h
    · intro h
      subst h
      simp [rustGet]
  · intro T E decode body
    rfl

/-- C7: whenever the decoder rejects a successfully transported body, both
edge functions return exactly MalformedResource — not the decoder's error
detail and not a success. -/
theorem C7_decode_failure_is_malformed {T E : Type} (decode : String → Except E T)
    (body : String) (err : E) (hdec : decode body = .error err) :
    get_edge decode (.ok body) = .error CryptoMktErrorType.MalformedResource ∧
    post_edge decode (.ok body) = .error CryptoMktErrorType.MalformedResource := by
  constructor <;> simp [get_edge, post_edge, hdec]

/-- C7 witness: a decoder that rejects the body x with detail boom. -/
theorem C7_witness :
    get_edge (fun _ : String => (Except.error "boom" : Except String Nat)) (.ok "x")
      = .error CryptoMktErrorType.MalformedResource :=
  (C7_decode_failure_is_malformed (fun _ : String => (Except.error "boom" : Except String Nat))
    "x" "boom" rfl).1

/-- C10: a 200 response whose body text cannot be read is mapped to
MalformedResource by the GET transport but to BadRequest by the POST
transport, and the two pipelines surface exactly those kinds. -/
theorem C10_body_read_failure_divergence {T E : Type} (decode : String → Except E T) :
    rustGet (.resp 200 (.error ())) = .error CryptoMktErrorType.MalformedResource ∧
    rustPost (.resp 200 (.error ())) = .error CryptoMktErrorType.BadRequest ∧
    getPipeline decode (.resp 200 (.error ())) = .error CryptoMktErrorType.MalformedResource ∧
    postPipeline decode (.resp 200 (.error ())) = .error CryptoMktErrorType.BadRequest :=
  ⟨rfl, rfl, rfl, rfl⟩

/-! ### Claims about the signature message -/

/-- The ascending-key order on payload pairs, the order the spec describes
for the signature suffix. -/
def keyLe (p q : String × String) : Prop := strLe p.1 q.1

instance : DecidableRel keyLe := fun p q => inferInstanceAs (Decidable (strLe p.1 q.1))

instance : IsTotal (String × String) keyLe := ⟨fun p q => total_of strLe p.1 q.1⟩

instance : IsTrans (String × String) keyLe := ⟨fun _ _ _ h1 h2 => trans_of strLe h1 h2⟩

/-- The strict ascending-key order with distinct keys. -/
def keyLt (p q : String × String) : Prop := strLe p.1 q.1 ∧ p.1 ≠ q.1

instance : IsAntisymm (String × String) keyLt :=
  ⟨fun _ _ h1 h2 => absurd (antisymm h1.1 h2.1) h1.2⟩

/-- The payload pairs sorted in ascending key order. -/
def sortByKey (P : List (String × String)) : List (String × String) :=
  List.insertionSort keyLe P

/-- Delimiter-free concatenation of a list of strings. -/
def concatAll (vs : List String) : String := vs.foldr (fun v acc => v ++ acc) ""

/-- With distinct keys, looking up the key of a pair of the list yields
that pair's value. -/
theorem lookup_eq_snd {P : List (String × String)} {p : String × String}
    (hnd : (P.map Prod.fst).Nodup) (hp : p ∈ P) : P.lookup p.1 = some p.2 := by
  induction P with
  | nil => cases hp
  | cons q Q ih =>
    rw [List.map_cons, List.nodup_cons] at hnd
    rcases List.mem_cons.mp hp with h | h
    · subst h
      exact List.lookup_cons_self
    · have hne : p.1 ≠ q.1 := by
        intro he
        exact hnd.1 (he ▸ List.mem_map_of_mem Prod.fst h)

      have hb : (p.1 == q.1) = false := beq_eq_false_iff_ne.mpr hne
      rw [List.lookup_cons, hb]
      exact ih hnd.2 h

/-- A key drawn from the key column can always be looked up. -/
theorem lookup_total_of_mem_keys {P : List (String × String)} {k : String}
    (h : k ∈ P.map Prod.fst) : ∃ v, P.lookup k = some v := by
  induction P with
  | nil => exact absurd h (by simp)
  | cons q Q ih =>
    by_cases he : k = q.1
    · refine ⟨q.2, ?_⟩
      rw [List.lookup_cons, beq_iff_eq.mpr he]
    · have h1 : k ∈ Q.map Prod.fst := by
        rw [List.map_cons] at h
        rcases List.mem_cons.mp h with h2 | h2
        · exact absurd h2 he
        · exact h2
      obtain ⟨v, hv⟩ := ih h1
      refine ⟨v, ?_⟩
      rw [List.lookup_cons, beq_eq_false_iff_ne.mpr he, hv]

/-- Folding the lookup-append step over keys paired with their values
appends the concatenation of the values. -/
theorem foldlM_lookup_concat (P : List (String × String)) {ks vs : List String}
    (h : List.Forall₂ (fun k v => P.lookup k = some v) ks vs) :
    ∀ base : String,
      List.foldlM (fun s k => (P.lookup k).map (fun v => s ++ v)) base ks
        = some (base ++ concatAll vs) := by
  induction h with
  | nil => intro base; simp [concatAll]
  | cons hkv htail ih =>
    intro base
    rw [List.foldlM_cons, hkv]
    show List.foldlM _ (base ++ _) _ = _
    rw [ih]
    simp [concatAll, String.append_assoc]

/-- Folding the lookup-append step over any all-present key list succeeds
and only ever extends the accumulator on the right. -/
theorem foldlM_lookup_total (P : List (String × String)) (ks : List String)
    (hks : ∀ k ∈ ks, ∃ v, P.lookup k = some v) :
    ∀ base : String,
      ∃ r, List.foldlM (fun s k => (P.lookup k).map (fun v => s ++ v)) base ks
        = some (base ++ r) := by
  induction ks with
  | nil => intro base; exact ⟨"", by simp⟩
  | cons k ks ih =>
    intro base
    obtain ⟨v, hv⟩ := hks k (List.mem_cons_self k ks)
    obtain ⟨r, hr⟩ := ih (fun k hk => hks k (List.mem_cons_of_mem _ hk)) (base ++ v)
    refine ⟨v ++ r, ?_⟩
    rw [List.foldlM_cons, hv]
    show List.foldlM _ (base ++ v) _ = _
    rw [hr, String.append_assoc]

/-- The sorted key column of the payload is the key column of the sorted
payload: both are ascending permutations of the same key list, and the
string order is antisymmetric. -/
theorem sorted_keys_eq (P : List (String × String)) :
    List.insertionSort strLe (P.map Prod.fst) = (sortByKey P).map Prod.fst := by
  refine List.eq_of_perm_of_sorted (r := strLe) ?_ ?_ ?_
  · exact (List.perm_insertionSort _ _).trans
      ((List.perm_insertionSort keyLe P).map Prod.fst).symm
  · exact List.sorted_insertionSort _ _
  · exact List.Pairwise.map Prod.fst (fun a b h => h) (List.sorted_insertionSort keyLe P)

/-- The element-by-element lookup relation between the key column and the
value column of a sublist of a distinct-key payload. -/
theorem forall2_lookup {P : List (String × String)} (hnd : (P.map Prod.fst).Nodup)
    (SP : List (String × String)) (hsub : ∀ p ∈ SP, p ∈ P) :
    List.Forall₂ (fun k v => P.lookup k = some v) (SP.map Prod.fst) (SP.map Prod.snd) := by
  induction SP with
  | nil => exact List.Forall₂.nil
  | cons p SP ih =>
    simp only [List.map_cons]
    exact List.Forall₂.cons (lookup_eq_snd hnd (hsub p (List.mem_cons_self p SP)))
      (ih (fun q hq => hsub q (List.mem_cons_of_mem _ hq)))

/-- The non-GET signature message in closed form: the base followed by the
values of the key-sorted payload, concatenated without delimiter. -/
theorem signature_format_not_get {v e : String} {P : List (String × String)} {t : Option Nat}
    (hnd : (P.map Prod.fst).Nodup) :
    build_signature_format v e P false t
      = some ((tsStr t ++ "/" ++ v ++ "/" ++ e) ++ concatAll ((sortByKey P).map Prod.snd)) := by
  show List.foldlM _ _ (List.insertionSort strLe (P.map Prod.fst)) = _
  rw [sorted_keys_eq]
  exact foldlM_lookup_concat P
    (forall2_lookup hnd _ (fun p hp => (List.perm_insertionSort keyLe P).subset hp)) _

/-- With distinct keys, the key-sorted payload is even sorted for the
strict key order. -/
theorem sortByKey_sorted_strict {P : List (String × String)}
    (hnd : (P.map Prod.fst).Nodup) :
    List.Sorted keyLt (sortByKey P) := by
  have hs : List.Sorted keyLe (sortByKey P) := List.sorted_insertionSort keyLe P
  have hnd' : ((sortByKey P).map Prod.fst).Nodup :=
    (((List.perm_insertionSort keyLe P).map Prod.fst).nodup_iff).mpr hnd
  have hne : List.Pairwise (fun p q : String × String => p.1 ≠ q.1) (sortByKey P) :=
    List.pairwise_map.mp hnd'
  exact (hs.and hne).imp (fun h => ⟨h.1, h.2⟩)

/-- Two distinct-key payloads that are permutations of one another have
the same key-sorted pair list: both are permutations of the same pairs and
both are sorted for the strict key order, which is antisymmetric. -/
theorem sortByKey_perm_eq {P Q : List (String × String)} (hperm : P.Perm Q)
    (hnd : (P.map Prod.fst).Nodup) : sortByKey P = sortByKey Q := by
  have hndQ : (Q.map Prod.fst).Nodup := ((hperm.map Prod.fst).nodup_iff).mp hnd
  refine List.eq_of_perm_of_sorted (r := keyLt) ?_ ?_ ?_
  · exact (List.perm_insertionSort keyLe P).trans
      (hperm.trans (List.perm_insertionSort keyLe Q).symm)
  · exact sortByKey_sorted_strict hnd
  · exact sortByKey_sorted_strict hndQ

/-- C1: for every endpoint, version, distinct-key payload and timestamp,
the non-GET signature message is the string timestamp/version/endpoint
followed by the payload's values (not its keys) concatenated without
delimiter in ascending key order, and the GET message is exactly
timestamp/version/endpoint, with no payload value even when the payload is
non-empty. -/
theorem C1_signature_message (v e : String) (P : List (String × String)) (t : Option Nat)
    (hnd : (P.map Prod.fst).Nodup) :
    build_signature_format v e P true t = some (tsStr t ++ "/" ++ v ++ "/" ++ e) ∧
    build_signature_format v e P false t
      = some ((tsStr t ++ "/" ++ v ++ "/" ++ e)
          ++ concatAll ((sortByKey P).map Prod.snd)) :=
  ⟨rfl, signature_format_not_get hnd⟩

/-- C1 witness: the spec's scenario B payload, keys b and a inserted in
that order, timestamp 7 — the suffix is 12, the values in ascending key
order. -/
theorem C1_witness :
    build_signature_format "v1" "orders" [("b", "2"), ("a", "1")] false (some 7)
      = some "7/v1/orders12" := by
  rw [(C1_signature_message "v1" "orders" [("b", "2"), ("a", "1")] (some 7) (by decide)).2]
  decide

/-- C2 counterexample: two payloads with the same keys that differ in the
value at key a (and at key b) produce the same signature message, because
the values are concatenated without a delimiter — the claimed value
sensitivity fails. -/
theorem C2_counterexample :
    ([("a", "x"), ("b", "yz")] : List (String × String)).map Prod.fst
        = ([("a", "xy"), ("b", "z")] : List (String × String)).map Prod.fst ∧
    List.lookup "a" [("a", "x"), ("b", "yz")] ≠ List.lookup "a" [("a", "xy"), ("b", "z")] ∧
    build_signature_format "v1" "e" [("a", "x"), ("b", "yz")] false (some 0)
      = build_signature_format "v1" "e" [("a", "xy"), ("b", "z")] false (some 0) :=
  ⟨rfl, by decide, by decide⟩

/-- C2 (amended): the non-GET signature message is invariant under
reordering of the payload's insertion order — it is a deterministic
function of the sorted (key, value) pairs — but it is not injective in the
values: payloads with the same keys and different values can collide,
since the values are concatenated without delimiter. -/
theorem C2_reorder_invariant (v e : String) (P Q : List (String × String)) (t : Option Nat)
    (hperm : P.Perm Q) (hnd : (P.map Prod.fst).Nodup) :
    build_signature_format v e P false t = build_signature_format v e Q false t := by
  have hndQ : (Q.map Prod.fst).Nodup := ((hperm.map Prod.fst).nodup_iff).mp hnd
  rw [signature_format_not_get hnd, signature_format_not_get hndQ,
    sortByKey_perm_eq hperm hnd]

/-- C2 witness: the same two pairs inserted in the two possible orders
yield the same message. -/
theorem C2_witness :
    build_signature_format "v1" "orders" [("b", "2"), ("a", "1")] false (some 7)
      = build_signature_format "v1" "orders" [("a", "1"), ("b", "2")] false (some 7) :=
  C2_reorder_invariant "v1" "orders" _ _ (some 7) (by decide) (by decide)

/-- Totality of the signature message: the fold of lookups over the sorted
keys always succeeds, because every sorted key is a key of the payload. -/
theorem signature_total_aux (v e : String) (P : List (String × String)) (g : Bool)
    (t : Option Nat) :
    ∃ r, build_signature_format v e P g t
      = some ((tsStr t ++ "/" ++ v ++ "/" ++ e) ++ r) := by
  cases g with
  | true => exact ⟨"", by simp [build_signature_format]⟩
  | false =>
    obtain ⟨r, hr⟩ := foldlM_lookup_total P (List.insertionSort strLe (P.map Prod.fst))
      (fun k hk => lookup_total_of_mem_keys ((List.perm_insertionSort _ _).subset hk))
      (tsStr t ++ "/" ++ v ++ "/" ++ e)
    exact ⟨r, hr⟩

/-- C9: build_signature_format is total — for every endpoint, version,
payload, method flag and clock reading it returns a string (every lookup
of a sorted key succeeds because the keys come from the payload itself),
and when the clock reports a pre-epoch time the timestamp prefix is empty,
so the message starts with a slash. -/
theorem C9_signature_total (v e : String) (P : List (String × String)) (g : Bool) :
    (∀ t, ∃ s, build_signature_format v e P g t = some s) ∧
    (∃ s, build_signature_format v e P g none = some s ∧ s.data.head? = some '/') := by
  constructor
  · intro t
    obtain ⟨r, hr⟩ := signature_total_aux v e P g t
    exact ⟨_, hr⟩
  · obtain ⟨r, hr⟩ := signature_total_aux v e P g none
    exact ⟨_, hr, rfl⟩

/-- C9 witness: a concrete non-GET call under a pre-epoch clock succeeds. -/
theorem C9_witness :
    (build_signature_format "v1" "e" [("a", "1")] false none).isSome = true := by
  obtain ⟨s, hs⟩ := (C9_signature_total "v1" "e" [("a", "1")] false).1 none
  rw [hs]
  rfl

/-! ### Claims about the signer -/

/-- Every hex digit belongs to the lowercase alphabet. -/
theorem hexDigit_mem (n : Nat) : hexDigit n ∈ hexDigits := by
  have h : n % 16 < 16 := Nat.mod_lt _ (by decide)
  have key : ∀ m, m < 16 → hexDigits.getD m '0' ∈ hexDigits := by decide
  exact key _ h

/-- Every character of a hex encoding belongs to the lowercase alphabet. -/
theorem hexOfBytes_chars {bs : List Nat} {c : Char} (h : c ∈ (hexOfBytes bs).data) :
    c ∈ hexDigits := by
  obtain ⟨b, _, hc⟩ := List.mem_flatMap.mp h
  have hc2 : c = hexDigit (b / 16) ∨ c = hexDigit b := by simpa [hexByte] using hc
  rcases hc2 with rfl | rfl <;> exact hexDigit_mem _

/-- The first piece of a split is the longest prefix free of the
separator. -/
theorem splitChars_head (sep : Char) :
    ∀ l : List Char, ∃ ts, splitChars sep l = (l.takeWhile (fun c => c != sep)) :: ts := by
  intro l
  induction l with
  | nil => exact ⟨[], rfl⟩
  | cons c cs ih =>
    obtain ⟨ts, hts⟩ := ih
    by_cases h : c = sep
    · refine ⟨(cs.takeWhile (fun c => c != sep)) :: ts, ?_⟩
      simp [splitChars, hts, h]
    · refine ⟨ts, ?_⟩
      simp [splitChars, hts, h]

/-- The Rust `split` head in closed form: the prefix before the first
separator. -/
theorem rustSplitFirst_eq_takeWhile (sep : Char) (s : String) :
    rustSplitFirst sep s = some (String.mk (s.data.takeWhile (fun c => c != sep))) := by
  obtain ⟨ts, hts⟩ := splitChars_head sep s.data
  simp [rustSplitFirst, hts]

/-- Digit characters of base-10 digits lie in the ASCII digit range. -/
theorem digitChar_digit : ∀ m, m < 10 → 48 ≤ (Nat.digitChar m).toNat ∧ (Nat.digitChar m).toNat ≤ 57 := by
  decide

/-- Every character the base-10 digit writer emits, beyond those already
accumulated, is an ASCII digit. -/
theorem toDigitsCore_digits :
    ∀ (fuel n : Nat) (acc : List Char),
      (∀ c ∈ acc, 48 ≤ c.toNat ∧ c.toNat ≤ 57) →
      ∀ c ∈ Nat.toDigitsCore 10 fuel n acc, 48 ≤ c.toNat ∧ c.toNat ≤ 57 := by
  intro fuel
  induction fuel with
  | zero => intro n acc hacc c hc; exact hacc c hc
  | succ fuel ih =>
    intro n acc hacc c hc
    have hacc2 : ∀ c2 ∈ Nat.digitChar (n % 10) :: acc, 48 ≤ c2.toNat ∧ c2.toNat ≤ 57 := by
      intro c2 hc2
      rcases List.mem_cons.mp hc2 with h2 | h2
      · rw [h2]; exact digitChar_digit _ (Nat.mod_lt _ (by decide))
      · exact hacc c2 h2
    simp only [Nat.toDigitsCore] at hc
    split at hc
    · exact hacc2 c hc
    · exact ih _ _ hacc2 c hc

/-- The timestamp string consists of ASCII digits only (or is empty when
the clock reported a pre-epoch time). -/
theorem tsStr_digits (t : Option Nat) : ∀ c ∈ (tsStr t).data, 48 ≤ c.toNat ∧ c.toNat ≤ 57 := by
  cases t with
  | none => intro c hc; exact absurd hc (List.not_mem_nil c)
  | some n =>
    intro c hc
    have he : (tsStr (some n)).data = Nat.toDigitsCore 10 (n + 1) n [] := rfl
    rw [he] at hc
    exact toDigitsCore_digits (n + 1) n []
      (fun c2 hc2 => absurd hc2 (List.not_mem_nil c2)) c hc

/-- takeWhile over a satisfying prefix followed by a failing character
yields exactly that prefix. -/
theorem takeWhile_append_stop {p : Char → Bool} :
    ∀ (l1 : List Char) (c0 : Char) (l2 : List Char),
      (∀ c ∈ l1, p c = true) → p c0 = false →
      (l1 ++ c0 :: l2).takeWhile p = l1 := by
  intro l1
  induction l1 with
  | nil => intro c0 l2 _ h0; simp [List.takeWhile_cons, h0]
  | cons a l1 ih =>
    intro c0 l2 h h0
    have ha : p a = true := h a (List.mem_cons_self a l1)
    rw [List.cons_append, List.takeWhile_cons_of_pos ha,
      ih c0 l2 (fun c hc => h c (List.mem_cons_of_mem _ hc)) h0]

/-- The prefix of any produced signature message before its first slash is
exactly the timestamp string. -/
theorem takeWhile_msg (t : Option Nat) (v e r : String) :
    ((tsStr t ++ "/" ++ v ++ "/" ++ e) ++ r).data.takeWhile (fun c => c != '/')
      = (tsStr t).data := by
  have hslash : "/".data = ['/'] := rfl
  have hd : ((tsStr t ++ "/" ++ v ++ "/" ++ e) ++ r).data
      = (tsStr t).data ++ '/' :: (v.data ++ '/' :: (e.data ++ r.data)) := by
    simp [String.data_append, hslash]
  rw [hd]
  refine takeWhile_append_stop _ _ _ ?_ (by decide)
  intro c hc
  obtain ⟨h1, _⟩ := tsStr_digits t c hc
  have hne : c ≠ '/' := by
    intro hcc
    rw [hcc] at h1
    exact absurd h1 (by decide)
  simpa using hne

/-- Rebuilding a string from its character list is the identity. -/
theorem mk_data (s : String) : String.mk s.data = s := by
  cases s
  rfl

/-- A string of ASCII characters outside the control range and below DEL
is a representable header value. -/
theorem headerValueOk_of_ascii {s : String}
    (h : ∀ c ∈ s.data, 32 ≤ c.toNat ∧ c.toNat < 127) :
    (utf8Bytes s).all headerByteOk = true := by
  rw [List.all_eq_true]
  intro b hb
  rw [utf8Bytes] at hb
  obtain ⟨c, hc, hbc⟩ := List.mem_flatMap.mp hb
  obtain ⟨h1, h2⟩ := h c hc
  simp only [] at hbc
  rw [if_pos (by omega : c.toNat < 0x80)] at hbc
  have hb2 : b = c.toNat := List.mem_singleton.mp hbc
  simp only [headerByteOk, Bool.or_eq_true, Bool.and_eq_true, decide_eq_true_eq]
  omega

/-- Every hex string — in particular every signature — is a representable
header value. -/
theorem headerValueOk_hex {s : String} (h : ∀ c ∈ s.data, c ∈ hexDigits) :
    (utf8Bytes s).all headerByteOk = true :=
  headerValueOk_of_ascii (fun c hc => by
    have hall : ∀ c2 ∈ hexDigits, 32 ≤ c2.toNat ∧ c2.toNat < 127 := by decide
    exact hall c (h c hc))

/-- The private branch with a representable api key: the signature message
exists, the api key passes, the hex signature and the digit timestamp
always pass, so exactly the three headers come back. -/
theorem build_headers_success (ak sk v e : String) (P : List (String × String))
    (ig : Bool) (t : Option Nat) (msg : String)
    (hmsg : build_signature_format v e P ig t = some msg)
    (hak : (utf8Bytes ak).all headerByteOk = true) :
    build_headers ak sk v e P false ig t
      = some [(X_MKT_APIKEY, ak), (X_MKT_SIGNATURE, sign_msg sk msg),
          (X_MKT_TIMESTAMP, String.mk (msg.data.takeWhile (fun c => c != '/')))] := by
  obtain ⟨r, hr⟩ := signature_total_aux v e P ig t
  rw [hmsg] at hr
  have hmeq : msg = (tsStr t ++ "/" ++ v ++ "/" ++ e) ++ r := Option.some.inj hr
  have hsig : (utf8Bytes (sign_msg sk msg)).all headerByteOk = true :=
    headerValueOk_hex (fun c hc => hexOfBytes_chars hc)
  have hts : String.mk (msg.data.takeWhile (fun c => c != '/')) = tsStr t := by
    rw [hmeq, takeWhile_msg, mk_data]
  have htsok : (utf8Bytes (String.mk (msg.data.takeWhile (fun c => c != '/')))).all
      headerByteOk = true := by
    rw [hts]
    refine headerValueOk_of_ascii (fun c hc => ?_)
    obtain ⟨h1, h2⟩ := tsStr_digits t c hc
    omega
  simp [build_headers, hmsg, mkHeaderValue, hak, hsig, rustSplitFirst_eq_takeWhile, htsok]

/-- The private branch returns nothing at all or a full three-entry map. -/
theorem build_headers_private_cases (ak sk v e : String) (P : List (String × String))
    (ig : Bool) (t : Option Nat) :
    build_headers ak sk v e P false ig t = none ∨
    ∃ kv sv tv, build_headers ak sk v e P false ig t
      = some [(X_MKT_APIKEY, kv), (X_MKT_SIGNATURE, sv), (X_MKT_TIMESTAMP, tv)] := by
  cases hb : build_signature_format v e P ig t with
  | none => exact Or.inl (by simp [build_headers, hb])
  | some msg =>
    cases hk : mkHeaderValue ak with
    | none => exact Or.inl (by simp [build_headers, hb, hk])
    | some kv =>
      cases hsv : mkHeaderValue (sign_msg sk msg) with
      | none => exact Or.inl (by simp [build_headers, hb, hk, hsv])
      | some sv =>
        cases hts : rustSplitFirst '/' msg with
        | none => exact Or.inl (by simp [build_headers, hb, hk, hsv, hts])
        | some ts =>
          cases htv : mkHeaderValue ts with
          | none => exact Or.inl (by simp [build_headers, hb, hk, hsv, hts, htv])
          | some tv =>
            exact Or.inr ⟨kv, sv, tv, by simp [build_headers, hb, hk, hsv, hts, htv]⟩

/-- C4 counterexample: an api key holding a control byte (a newline) is
not representable as a header value, so HeaderValue::from_str fails and
the unwrap panics — modelled none — and no three-header map is returned;
the claim as frozen asserts three headers for every api key. -/
theorem C4_counterexample :
    (utf8Bytes "k\n").all headerByteOk = false ∧
    build_headers "k\n" "s" "v1" "e" [] false true (some 0) = none :=
  ⟨by decide, by decide⟩

/-- C4 (amended): with is_public the header map is empty.  With a private
call and an api key that is representable as a header value (every UTF-8
byte is visible ASCII, obs-text or tab), exactly the three auth headers
come back — the raw api key, the hex HMAC of the whole signed message
(always representable), and a timestamp byte-identical to the prefix of
the signed message before its first slash (digits, always representable).
An unrepresentable api key aborts construction (the from_str unwrap
panics, modelled none).  In no case does a partially-built set of one or
two auth headers appear: every returned map has zero or three entries. -/
theorem C4_build_headers (ak sk v e : String) (P : List (String × String))
    (ig : Bool) (t : Option Nat) :
    build_headers ak sk v e P true ig t = some [] ∧
    (∀ msg, build_signature_format v e P ig t = some msg →
      (utf8Bytes ak).all headerByteOk = true →
      build_headers ak sk v e P false ig t
        = some [(X_MKT_APIKEY, ak), (X_MKT_SIGNATURE, sign_msg sk msg),
            (X_MKT_TIMESTAMP, String.mk (msg.data.takeWhile (fun c => c != '/')))]) ∧
    (∀ (ip : Bool) (hs : List (String × String)),
      build_headers ak sk v e P ip ig t = some hs → hs.length = 0 ∨ hs.length = 3) ∧
    ((utf8Bytes ak).all headerByteOk = true →
      ∃ hs, build_headers ak sk v e P false ig t = some hs ∧ hs.length = 3) ∧
    ((utf8Bytes ak).all headerByteOk = false →
      build_headers ak sk v e P false ig t = none) := by
  refine ⟨rfl, ?_, ?_, ?_, ?_⟩
  · intro msg hmsg hak
    exact build_headers_success ak sk v e P ig t msg hmsg hak
  · intro ip hs h
    cases ip with
    | true =>
      have h0 : build_headers ak sk v e P true ig t = some [] := rfl
      rw [h0] at h
      rw [← Option.some.inj h]
      exact Or.inl rfl
    | false =>
      rcases build_headers_private_cases ak sk v e P ig t with h0 | ⟨kv, sv, tv, h0⟩
      · rw [h0] at h; cases h
      · rw [h0] at h
        rw [← Option.some.inj h]
        exact Or.inr rfl
  · intro hak
    obtain ⟨r, hr⟩ := signature_total_aux v e P ig t
    exact ⟨_, build_headers_success ak sk v e P ig t _ hr hak, rfl⟩
  · intro hbad
    cases hb : build_signature_format v e P ig t with
    | none => simp [build_headers, hb]
    | some msg => simp [build_headers, hb, mkHeaderValue, hbad]

/-- C4 witness: a private GET with empty payload, timestamp 0 and the
plain-ASCII api key k — the timestamp header is the character 0, the
prefix of 0/v1/e before the first slash. -/
theorem C4_witness :
    build_headers "k" "s" "v1" "e" [] false true (some 0)
      = some [(X_MKT_APIKEY, "k"), (X_MKT_SIGNATURE, sign_msg "s" "0/v1/e"),
          (X_MKT_TIMESTAMP, "0")] := by
  have h := (C4_build_headers "k" "s" "v1" "e" [] true (some 0)).2.1 "0/v1/e" (by rfl) (by decide)
  rw [h]
  rfl

/-! ### Claims about URL construction -/

/-- C6 witness: a 200 body is handed on unchanged. -/
theorem C6_witness : rustGet (.resp 200 (.ok "x")) = .ok "x" :=
  (C6_decode_only_on_200 200 "x").1.mpr rfl

/-- C10 witness: the two pipelines at a concrete decoder. -/
theorem C10_witness :
    getPipeline (fun s : String => (Except.ok s : Except Unit String))
      (.resp 200 (.error ())) = .error CryptoMktErrorType.MalformedResource ∧
    postPipeline (fun s : String => (Except.ok s : Except Unit String))
      (.resp 200 (.error ())) = .error CryptoMktErrorType.BadRequest :=
  ⟨(C10_body_read_failure_divergence (fun s : String =>
      (Except.ok s : Except Unit String))).2.2.1,
   (C10_body_read_failure_divergence (fun s : String =>
      (Except.ok s : Except Unit String))).2.2.2⟩

end CryptoMkt
